import Mathlib

/-!
Shallow embedding of the interactive terminal list-editor (the TUI core) of
the todo-rust repository: the `run_tui` event loop and its key handlers from
`src/tui.rs`, together with the `run_editor` bridge to the external editor.

Terminal rendering and raw-mode management are pure I/O with no effect on the
item list or the selection, so they are not modelled; what is modelled is the
state carried across loop iterations (the todo list and the selected index),
the dispatch on key codes, and the fallible file-system / child-process
operations each handler performs, represented by an explicit outcome record
(`BridgeEnv`) supplied with the key event.
-/

namespace TodoTui

/-- The `Todo` struct of `src/tui.rs` (`pub struct Todo`): id, display text,
completion flag, optional due date string, optional reminder string. -/
structure Todo where
  id : Nat
  text : String
  done : Bool
  due_date : Option String
  reminder : Option String
  deriving Repr, DecidableEq

/-- The I/O failures a key handler can hit: a scratch-file write failure
(`fs::write(..)?`), a scratch-file read failure (`fs::read_to_string(..)?`),
or a child-process spawn failure inside `run_editor`. -/
inductive IoErr where
  | fsWrite
  | fsRead
  | spawn
  deriving Repr, DecidableEq

/-- Outcome of `std::process::Command::new(editor).arg(file).status()`:
either the process was launched and exited with some status code (any code,
zero or not), or the spawn itself failed. -/
inductive LaunchOutcome where
  | launched (code : Int)
  | failed
  deriving Repr, DecidableEq

/-- The environment one Editor Bridge invocation runs against: whether the
scratch-file write succeeds, the child-process launch outcome, and the
read-back result (`some content` on success, `none` for a read failure). -/
structure BridgeEnv where
  writeOk : Bool
  launch : LaunchOutcome
  readBack : Option String
  deriving Repr, DecidableEq

/-- The tail of `run_editor` (src/tui.rs lines 213-216): the spawn result is
matched, `Ok(_)` — any exit status — maps to success and a spawn error is
returned to the caller. The terminal suspend/restore steps around it do not
touch the todo list. -/
def run_editor (l : LaunchOutcome) : Except IoErr Unit :=
  match l with
  | .launched _ => .ok ()
  | .failed => .error .spawn

/-- Leading and trailing whitespace stripped from a character list. -/
def trimChars (cs : List Char) : List Char :=
  ((cs.dropWhile Char.isWhitespace).reverse.dropWhile Char.isWhitespace).reverse

/-- Rust's `str::trim`, as applied by every handler to the scratch-file
content: strip leading and trailing whitespace. Defined structurally over the
string's character list. -/
def trim (s : String) : String := String.mk (trimChars s.data)

instance {ε α : Type} [DecidableEq ε] [DecidableEq α] : DecidableEq (Except ε α) := fun a b =>
  match a, b with
  | .ok x, .ok y =>
    if h : x = y then isTrue (by rw [h]) else isFalse (by intro hc; cases hc; exact h rfl)
  | .error x, .error y =>
    if h : x = y then isTrue (by rw [h]) else isFalse (by intro hc; cases hc; exact h rfl)
  | .ok _, .error _ => isFalse (by intro hc; cases hc)
  | .error _, .ok _ => isFalse (by intro hc; cases hc)

/-- Key events dispatched by the loop in `run_tui`, one constructor per match
arm of `key.code`. The bridge-invoking keys carry the `BridgeEnv` their
handler will run against; `other` stands for the catch-all `_ => {}` arm. -/
inductive Key where
  | quit
  | down
  | up
  | toggle
  | delete
  | edit (env : BridgeEnv)
  | due (env : BridgeEnv)
  | remind (env : BridgeEnv)
  | clearRemind
  | add (env : BridgeEnv)
  | other
  deriving Repr, DecidableEq

/-- The loop state of `run_tui`: the owned `Vec<Todo>` and the `selected`
index (`let mut selected = 0`). -/
structure TuiState where
  todos : List Todo
  selected : Nat
  deriving Repr, DecidableEq

/-- `KeyCode::Down`: `if selected < todos.len().saturating_sub(1) { selected += 1 }`.
`Nat` subtraction is saturating, matching `saturating_sub`. -/
def handleDown (s : TuiState) : TuiState :=
  if s.selected < s.todos.length - 1 then { s with selected := s.selected + 1 } else s

/-- `KeyCode::Up`: `if selected > 0 { selected -= 1 }`. -/
def handleUp (s : TuiState) : TuiState :=
  if s.selected > 0 then { s with selected := s.selected - 1 } else s

/-- `KeyCode::Char(' ')`: `if let Some(todo) = todos.get_mut(selected) { todo.done = !todo.done }`. -/
def handleToggle (s : TuiState) : TuiState :=
  match s.todos[s.selected]? with
  | some todo => { s with todos := s.todos.set s.selected { todo with done := !todo.done } }
  | none => s

/-- `KeyCode::Char('d')`: `if selected < todos.len() { todos.remove(selected);
if selected > 0 { selected -= 1 } }`. -/
def handleDelete (s : TuiState) : TuiState :=
  if s.selected < s.todos.length then
    { todos := s.todos.eraseIdx s.selected,
      selected := if s.selected > 0 then s.selected - 1 else s.selected }
  else s

/-- `KeyCode::Char('e')`: guard on `get_mut(selected)`, write the current text
to the scratch file (`?` propagates a write failure), run the editor; when it
reports success, read the file back (`?` propagates a read failure) and
replace the text only when the trimmed content is non-empty. When the editor
launch failed the handler falls through with the state unchanged. -/
def handleEdit (env : BridgeEnv) (s : TuiState) : Except IoErr TuiState :=
  match s.todos[s.selected]? with
  | none => .ok s
  | some todo =>
    if env.writeOk then
      match run_editor env.launch with
      | .ok _ =>
        match env.readBack with
        | none => .error .fsRead
        | some updated =>
          if !(trim updated).isEmpty then
            .ok { s with todos := s.todos.set s.selected { todo with text := trim updated } }
          else .ok s
      | .error _ => .ok s
    else .error .fsWrite

/-- `KeyCode::Char('t')`: same bridge pattern as edit; a non-empty trimmed
result becomes the new due date, an empty one clears it. No format check is
performed on the content. -/
def handleDue (env : BridgeEnv) (s : TuiState) : Except IoErr TuiState :=
  match s.todos[s.selected]? with
  | none => .ok s
  | some todo =>
    if env.writeOk then
      match run_editor env.launch with
      | .ok _ =>
        match env.readBack with
        | none => .error .fsRead
        | some updated =>
          if !(trim updated).isEmpty then
            .ok { s with todos := s.todos.set s.selected { todo with due_date := some (trim updated) } }
          else
            .ok { s with todos := s.todos.set s.selected { todo with due_date := none } }
      | .error _ => .ok s
    else .error .fsWrite

/-- `KeyCode::Char('r')`: same bridge pattern as due date, for the reminder
field. -/
def handleRemind (env : BridgeEnv) (s : TuiState) : Except IoErr TuiState :=
  match s.todos[s.selected]? with
  | none => .ok s
  | some todo =>
    if env.writeOk then
      match run_editor env.launch with
      | .ok _ =>
        match env.readBack with
        | none => .error .fsRead
        | some updated =>
          if !(trim updated).isEmpty then
            .ok { s with todos := s.todos.set s.selected { todo with reminder := some (trim updated) } }
          else
            .ok { s with todos := s.todos.set s.selected { todo with reminder := none } }
      | .error _ => .ok s
    else .error .fsWrite

/-- `KeyCode::Char('c')`: `if let Some(todo) = todos.get_mut(selected) { todo.reminder = None }`. -/
def handleClearRemind (s : TuiState) : TuiState :=
  match s.todos[s.selected]? with
  | some todo => { s with todos := s.todos.set s.selected { todo with reminder := none } }
  | none => s

/-- `KeyCode::Char('a')`: write an empty scratch file (`?` propagates), run
the editor; on launch success read the file back (`?` propagates); a
non-empty trimmed result is pushed as a fresh item with `id = todos.len() + 1`,
`done = false` and no due date or reminder, and the selection moves to
`todos.len().saturating_sub(1)` computed after the push. -/
def handleAdd (env : BridgeEnv) (s : TuiState) : Except IoErr TuiState :=
  if env.writeOk then
    match run_editor env.launch with
    | .ok _ =>
      match env.readBack with
      | none => .error .fsRead
      | some content =>
        if !(trim content).isEmpty then
          let todos := s.todos ++
            [{ id := s.todos.length + 1, text := trim content, done := false,
               due_date := none, reminder := none }]
          .ok { todos := todos, selected := todos.length - 1 }
        else .ok s
    | .error _ => .ok s
  else .error .fsWrite

/-- Dispatch on `key.code`, one arm per handler. `quit` breaks the loop in
the driver below and is the identity here; `other` is the `_ => {}` arm. -/
def handleKey (k : Key) (s : TuiState) : Except IoErr TuiState :=
  match k with
  | .quit => .ok s
  | .down => .ok (handleDown s)
  | .up => .ok (handleUp s)
  | .toggle => .ok (handleToggle s)
  | .delete => .ok (handleDelete s)
  | .edit env => handleEdit env s
  | .due env => handleDue env s
  | .remind env => handleRemind env s
  | .clearRemind => .ok (handleClearRemind s)
  | .add env => handleAdd env s
  | .other => .ok s

/-- Whether the key is the quit key `q`, on which the loop breaks. -/
def Key.isQuit : Key → Bool
  | .quit => true
  | _ => false

/-- Whether the key is the delete key `d`. -/
def Key.isDelete : Key → Bool
  | .delete => true
  | _ => false

/-- The `loop` of `run_tui`, driven by the (finite) stream of key events:
break on the quit key returning the current state, stop with the current
state when the stream ends, propagate a handler error, otherwise continue
with the handler's successor state. -/
def runTuiFrom (s : TuiState) : List Key → Except IoErr TuiState
  | [] => .ok s
  | k :: ks =>
    if k.isQuit then .ok s
    else
      match handleKey k s with
      | .ok s' => runTuiFrom s' ks
      | .error e => .error e

/-- `run_tui(todos)` under a stream of key events: the loop starts at
`selected = 0` and on normal exit hands the todo list back to the caller. -/
def run_tui (todos : List Todo) (ks : List Key) : Except IoErr (List Todo) :=
  Except.map TuiState.todos (runTuiFrom { todos := todos, selected := 0 } ks)

/-- All states the loop passes through (the initial state, then each state a
handler produces), up to the quit key, the end of the stream, or an error. -/
def visited (s : TuiState) : List Key → List TuiState
  | [] => [s]
  | k :: ks =>
    if k.isQuit then [s]
    else
      match handleKey k s with
      | .ok s' => s :: visited s' ks
      | .error _ => [s]

/-- Dense-id invariant, tested positionally: the item stored at index `i`
carries `id = i + 1`. -/
def idsFromAux (k : Nat) : List Todo → Bool
  | [] => true
  | t :: ts => (t.id == k + 1) && idsFromAux (k + 1) ts

/-- Boolean form of the spec's id invariant `items[i].id == i + 1`. -/
def idsOk (l : List Todo) : Bool := idsFromAux 0 l

/-- No key of the stream is the delete key. -/
def noDelete (ks : List Key) : Bool := ks.all fun k => !k.isDelete

/-- Modelled from the spec: "`due_date`: optional date string in `YYYY-MM-DD`
form". The repository's `validate_date` (src/main.rs) delegates to the
external chrono parser for the `%Y-%m-%d` format; only the string shape is
modelled: four digits, a dash, two digits, a dash, two digits. Every string
chrono accepts for `%Y-%m-%d` with a four-digit zero-padded year has this
shape. -/
def isYYYYMMDD (s : String) : Bool :=
  match s.toList with
  | [y1, y2, y3, y4, sep1, m1, m2, sep2, d1, d2] =>
    y1.isDigit && y2.isDigit && y3.isDigit && y4.isDigit &&
    sep1 == '-' && m1.isDigit && m2.isDigit && sep2 == '-' && d1.isDigit && d2.isDigit
  | _ => false

/-! ## Helper lemmas -/

/-- Selection invariant maintained by the loop: the index is zero (its resting
value on an empty list) or strictly inside the list. -/
def Inv (s : TuiState) : Prop := s.selected = 0 ∨ s.selected < s.todos.length

theorem inv_of_eq (s s' : TuiState) (hsel : s'.selected = s.selected)
    (hlen : s'.todos.length = s.todos.length) (h : Inv s) : Inv s' := by
  unfold Inv at h ⊢; omega

theorem handleEdit_ok_cases (env : BridgeEnv) (s s' : TuiState)
    (h : handleEdit env s = .ok s') :
    s' = s ∨ ∃ t u, s.todos[s.selected]? = some t ∧
      s' = ⟨s.todos.set s.selected { t with text := u }, s.selected⟩ := by
  obtain ⟨w, launch, rb⟩ := env
  cases hget : s.todos[s.selected]? with
  | none => simp [handleEdit, hget] at h; exact Or.inl h.symm
  | some t =>
    cases w with
    | false => simp [handleEdit, hget] at h
    | true =>
      cases launch with
      | failed => simp [handleEdit, hget, run_editor] at h; exact Or.inl h.symm
      | launched code =>
        cases rb with
        | none => simp [handleEdit, hget, run_editor] at h
        | some u =>
          by_cases hu : (trim u).isEmpty
          · simp [handleEdit, hget, run_editor, hu] at h; exact Or.inl h.symm
          · simp [handleEdit, hget, run_editor, hu] at h
            exact Or.inr ⟨t, trim u, rfl, h.symm⟩

theorem handleDue_ok_cases (env : BridgeEnv) (s s' : TuiState)
    (h : handleDue env s = .ok s') :
    s' = s ∨ ∃ t d, s.todos[s.selected]? = some t ∧
      s' = ⟨s.todos.set s.selected { t with due_date := d }, s.selected⟩ := by
  obtain ⟨w, launch, rb⟩ := env
  cases hget : s.todos[s.selected]? with
  | none => simp [handleDue, hget] at h; exact Or.inl h.symm
  | some t =>
    cases w with
    | false => simp [handleDue, hget] at h
    | true =>
      cases launch with
      | failed => simp [handleDue, hget, run_editor] at h; exact Or.inl h.symm
      | launched code =>
        cases rb with
        | none => simp [handleDue, hget, run_editor] at h
        | some u =>
          by_cases hu : (trim u).isEmpty
          · simp [handleDue, hget, run_editor, hu] at h
            exact Or.inr ⟨t, none, rfl, h.symm⟩
          · simp [handleDue, hget, run_editor, hu] at h
            exact Or.inr ⟨t, some (trim u), rfl, h.symm⟩

theorem handleRemind_ok_cases (env : BridgeEnv) (s s' : TuiState)
    (h : handleRemind env s = .ok s') :
    s' = s ∨ ∃ t r, s.todos[s.selected]? = some t ∧
      s' = ⟨s.todos.set s.selected { t with reminder := r }, s.selected⟩ := by
  obtain ⟨w, launch, rb⟩ := env
  cases hget : s.todos[s.selected]? with
  | none => simp [handleRemind, hget] at h; exact Or.inl h.symm
  | some t =>
    cases w with
    | false => simp [handleRemind, hget] at h
    | true =>
      cases launch with
      | failed => simp [handleRemind, hget, run_editor] at h; exact Or.inl h.symm
      | launched code =>
        cases rb with
        | none => simp [handleRemind, hget, run_editor] at h
        | some u =>
          by_cases hu : (trim u).isEmpty
          · simp [handleRemind, hget, run_editor, hu] at h
            exact Or.inr ⟨t, none, rfl, h.symm⟩
          · simp [handleRemind, hget, run_editor, hu] at h
            exact Or.inr ⟨t, some (trim u), rfl, h.symm⟩

theorem handleAdd_ok_cases (env : BridgeEnv) (s s' : TuiState)
    (h : handleAdd env s = .ok s') :
    s' = s ∨ ∃ u,
      s' = ⟨s.todos ++ [⟨s.todos.length + 1, u, false, none, none⟩], s.todos.length⟩ := by
  obtain ⟨w, launch, rb⟩ := env
  cases w with
  | false => simp [handleAdd] at h
  | true =>
    cases launch with
    | failed => simp [handleAdd, run_editor] at h; exact Or.inl h.symm
    | launched code =>
      cases rb with
      | none => simp [handleAdd, run_editor] at h
      | some u =>
        by_cases hu : (trim u).isEmpty
        · simp [handleAdd, run_editor, hu] at h; exact Or.inl h.symm
        · simp [handleAdd, run_editor, hu] at h
          exact Or.inr ⟨trim u, h.symm⟩

theorem handleToggle_selected (s : TuiState) : (handleToggle s).selected = s.selected := by
  unfold handleToggle; cases s.todos[s.selected]? <;> rfl

theorem handleToggle_length (s : TuiState) :
    (handleToggle s).todos.length = s.todos.length := by
  unfold handleToggle; cases s.todos[s.selected]? <;> simp

theorem handleClearRemind_selected (s : TuiState) :
    (handleClearRemind s).selected = s.selected := by
  unfold handleClearRemind; cases s.todos[s.selected]? <;> rfl

theorem handleClearRemind_length (s : TuiState) :
    (handleClearRemind s).todos.length = s.todos.length := by
  unfold handleClearRemind; cases s.todos[s.selected]? <;> simp

theorem inv_handleDown (s : TuiState) (h : Inv s) : Inv (handleDown s) := by
  unfold handleDown
  by_cases hlt : s.selected < s.todos.length - 1
  · rw [if_pos hlt]; right; show s.selected + 1 < s.todos.length; omega
  · rw [if_neg hlt]; exact h

theorem inv_handleUp (s : TuiState) (h : Inv s) : Inv (handleUp s) := by
  unfold handleUp
  by_cases hp : s.selected > 0
  · rw [if_pos hp]
    have hlt : s.selected < s.todos.length := by
      rcases h with h | h
      · omega
      · exact h
    right; show s.selected - 1 < s.todos.length; omega
  · rw [if_neg hp]; exact h

theorem inv_handleDelete (s : TuiState) (h : Inv s) : Inv (handleDelete s) := by
  unfold handleDelete
  by_cases hl : s.selected < s.todos.length
  · rw [if_pos hl]
    have hlen : (s.todos.eraseIdx s.selected).length = s.todos.length - 1 := by
      simp [List.length_eraseIdx, hl]
    by_cases hp : s.selected > 0
    · rw [if_pos hp]
      right
      show s.selected - 1 < (s.todos.eraseIdx s.selected).length
      omega
    · rw [if_neg hp]
      left
      show s.selected = 0
      omega
  · rw [if_neg hl]; exact h

theorem inv_handleKey (k : Key) (s s' : TuiState) (h : handleKey k s = .ok s')
    (hs : Inv s) : Inv s' := by
  cases k with
  | quit => injection h with h; exact h ▸ hs
  | other => injection h with h; exact h ▸ hs
  | down => injection h with h; exact h ▸ inv_handleDown s hs
  | up => injection h with h; exact h ▸ inv_handleUp s hs
  | delete => injection h with h; exact h ▸ inv_handleDelete s hs
  | toggle =>
    injection h with h
    exact h ▸ inv_of_eq s _ (handleToggle_selected s) (handleToggle_length s) hs
  | clearRemind =>
    injection h with h
    exact h ▸ inv_of_eq s _ (handleClearRemind_selected s) (handleClearRemind_length s) hs
  | edit env =>
    rcases handleEdit_ok_cases env s s' h with h1 | ⟨t, u, hget, h1⟩
    · exact h1 ▸ hs
    · subst h1; exact inv_of_eq s _ rfl (by simp) hs
  | due env =>
    rcases handleDue_ok_cases env s s' h with h1 | ⟨t, d, hget, h1⟩
    · exact h1 ▸ hs
    · subst h1; exact inv_of_eq s _ rfl (by simp) hs
  | remind env =>
    rcases handleRemind_ok_cases env s s' h with h1 | ⟨t, r, hget, h1⟩
    · exact h1 ▸ hs
    · subst h1; exact inv_of_eq s _ rfl (by simp) hs
  | add env =>
    rcases handleAdd_ok_cases env s s' h with h1 | ⟨u, h1⟩
    · exact h1 ▸ hs
    · subst h1
      right
      show s.todos.length < (s.todos ++ [_]).length
      simp

theorem visited_inv (s : TuiState) (ks : List Key) (hs : Inv s) :
    ∀ s' ∈ visited s ks, Inv s' := by
  induction ks generalizing s with
  | nil =>
    intro s' hmem
    simp [visited] at hmem
    exact hmem ▸ hs
  | cons k ks ih =>
    intro s' hmem
    by_cases hq : k.isQuit
    · simp [visited, hq] at hmem; exact hmem ▸ hs
    · cases hstep : handleKey k s with
      | ok s1 =>
        simp [visited, hq, hstep] at hmem
        rcases hmem with hmem | hmem
        · exact hmem ▸ hs
        · exact ih s1 (inv_handleKey k s s1 hstep hs) s' hmem
      | error e =>
        simp [visited, hq, hstep] at hmem
        exact hmem ▸ hs

theorem runTuiFrom_ok_mem_visited (s s' : TuiState) (ks : List Key)
    (h : runTuiFrom s ks = .ok s') : s' ∈ visited s ks := by
  induction ks generalizing s with
  | nil =>
    simp [runTuiFrom] at h
    subst h
    simp [visited]
  | cons k ks ih =>
    by_cases hq : k.isQuit
    · simp [runTuiFrom, hq] at h
      subst h
      simp [visited, hq]
    · cases hstep : handleKey k s with
      | ok s1 =>
        simp [runTuiFrom, hq, hstep] at h
        simp [visited, hq, hstep]
        exact Or.inr (ih s1 h)
      | error e => simp [runTuiFrom, hq, hstep] at h

theorem handleDown_todos (s : TuiState) : (handleDown s).todos = s.todos := by
  unfold handleDown; split <;> rfl

theorem handleUp_todos (s : TuiState) : (handleUp s).todos = s.todos := by
  unfold handleUp; split <;> rfl

theorem idsFromAux_iff (k : Nat) (l : List Todo) :
    idsFromAux k l = true ↔ ∀ i t, l[i]? = some t → t.id = k + i + 1 := by
  induction l generalizing k with
  | nil => simp [idsFromAux]
  | cons t ts ih =>
    rw [idsFromAux, Bool.and_eq_true, beq_iff_eq, ih (k + 1)]
    constructor
    · rintro ⟨h1, h2⟩ i u hu
      cases i with
      | zero =>
        rw [List.getElem?_cons_zero] at hu
        injection hu with hu
        subst hu
        omega
      | succ i =>
        rw [List.getElem?_cons_succ] at hu
        have := h2 i u hu
        omega
    · intro h
      refine ⟨?_, ?_⟩
      · have := h 0 t (by rw [List.getElem?_cons_zero]); omega
      · intro i u hu
        have := h (i + 1) u (by rw [List.getElem?_cons_succ]; exact hu)
        omega

/-- Sanity check connecting the boolean id invariant with its pointwise
meaning `items[i].id = i + 1`. -/
theorem idsOk_iff (l : List Todo) :
    idsOk l = true ↔ ∀ i t, l[i]? = some t → t.id = i + 1 := by
  rw [idsOk, idsFromAux_iff]
  constructor
  · intro h i t ht; have := h i t ht; omega
  · intro h i t ht; have := h i t ht; omega

theorem ids_set (l : List Todo) (n : Nat) (t t' : Todo)
    (hl : idsOk l = true) (hget : l[n]? = some t) (hid : t'.id = t.id) :
    idsOk (l.set n t') = true := by
  rw [idsOk_iff] at hl ⊢
  intro i u hu
  rw [List.getElem?_set] at hu
  by_cases hni : n = i
  · subst hni
    have hlt : n < l.length := by
      rcases List.getElem?_eq_some.mp hget with ⟨hlt, _⟩
      exact hlt
    rw [if_pos rfl, if_pos hlt] at hu
    injection hu with hu
    subst hu
    rw [hid]
    exact hl n t hget
  · rw [if_neg hni] at hu
    exact hl i u hu

theorem ids_append (l : List Todo) (u : String) (hl : idsOk l = true) :
    idsOk (l ++ [⟨l.length + 1, u, false, none, none⟩]) = true := by
  rw [idsOk_iff] at hl ⊢
  intro i t ht
  by_cases hi : i < l.length
  · rw [List.getElem?_append_left hi] at ht
    exact hl i t ht
  · by_cases hie : i = l.length
    · subst hie
      rw [List.getElem?_concat_length] at ht
      injection ht with ht
      rw [← ht]
    · have hnone : (l ++ [(⟨l.length + 1, u, false, none, none⟩ : Todo)])[i]? = none := by
        rw [List.getElem?_eq_none]
        simp only [List.length_append, List.length_singleton]
        omega
      rw [hnone] at ht
      exact Option.noConfusion ht

theorem ids_handleKey (k : Key) (s s' : TuiState) (h : handleKey k s = .ok s')
    (hk : k.isDelete = false) (hs : idsOk s.todos = true) : idsOk s'.todos = true := by
  cases k with
  | quit => injection h with h; exact h ▸ hs
  | other => injection h with h; exact h ▸ hs
  | down => injection h with h; rw [← h, handleDown_todos]; exact hs
  | up => injection h with h; rw [← h, handleUp_todos]; exact hs
  | delete => simp [Key.isDelete] at hk
  | toggle =>
    injection h with h
    rw [← h]
    unfold handleToggle
    cases hget : s.todos[s.selected]? with
    | none => exact hs
    | some t => exact ids_set s.todos s.selected t _ hs hget rfl
  | clearRemind =>
    injection h with h
    rw [← h]
    unfold handleClearRemind
    cases hget : s.todos[s.selected]? with
    | none => exact hs
    | some t => exact ids_set s.todos s.selected t _ hs hget rfl
  | edit env =>
    rcases handleEdit_ok_cases env s s' h with h1 | ⟨t, u, hget, h1⟩
    · exact h1 ▸ hs
    · subst h1; exact ids_set s.todos s.selected t _ hs hget rfl
  | due env =>
    rcases handleDue_ok_cases env s s' h with h1 | ⟨t, d, hget, h1⟩
    · exact h1 ▸ hs
    · subst h1; exact ids_set s.todos s.selected t _ hs hget rfl
  | remind env =>
    rcases handleRemind_ok_cases env s s' h with h1 | ⟨t, r, hget, h1⟩
    · exact h1 ▸ hs
    · subst h1; exact ids_set s.todos s.selected t _ hs hget rfl
  | add env =>
    rcases handleAdd_ok_cases env s s' h with h1 | ⟨u, h1⟩
    · exact h1 ▸ hs
    · subst h1; exact ids_append s.todos u hs

theorem visited_ids (s : TuiState) (ks : List Key) (hs : idsOk s.todos = true)
    (hnd : noDelete ks = true) : ∀ s' ∈ visited s ks, idsOk s'.todos = true := by
  induction ks generalizing s with
  | nil => intro s' hmem; simp [visited] at hmem; exact hmem ▸ hs
  | cons k ks ih =>
    intro s' hmem
    rw [noDelete, List.all_cons, Bool.and_eq_true] at hnd
    obtain ⟨hk, hks⟩ := hnd
    rw [Bool.not_eq_true'] at hk
    by_cases hq : k.isQuit
    · simp [visited, hq] at hmem; exact hmem ▸ hs
    · cases hstep : handleKey k s with
      | ok s1 =>
        simp [visited, hq, hstep] at hmem
        rcases hmem with hmem | hmem
        · exact hmem ▸ hs
        · exact ih s1 (ids_handleKey k s s1 hstep hk hs) hks s' hmem
      | error e => simp [visited, hq, hstep] at hmem; exact hmem ▸ hs

/-! ## Claims -/

/-- C1: in `run_tui`, the selection index starts at 0 and, for every initial
item list and every sequence of key events, whenever the item list is
non-empty the selected index satisfies `0 ≤ selected < len(items)`; every key
handler preserves this bound. The loop is started at `selected = 0`, which
satisfies the invariant, and every state the loop visits keeps it. -/
theorem C1_selection_in_bounds (todos : List Todo) (ks : List Key) (s' : TuiState)
    (hmem : s' ∈ visited { todos := todos, selected := 0 } ks)
    (hne : s'.todos ≠ []) :
    0 ≤ s'.selected ∧ s'.selected < s'.todos.length := by
  have hinv := visited_inv { todos := todos, selected := 0 } ks (Or.inl rfl) s' hmem
  rcases hinv with h | h
  · have hpos := List.length_pos.mpr hne
    exact ⟨Nat.zero_le _, by omega⟩
  · exact ⟨Nat.zero_le _, h⟩

/-- Witness for C1: a concrete state visited while running a one-item list
under a down key satisfies the bound. -/
theorem C1_selection_in_bounds_witness :
    (⟨[⟨1, "a", false, none, none⟩], 0⟩ : TuiState) ∈
      visited ⟨[⟨1, "a", false, none, none⟩], 0⟩ [Key.down, Key.quit] ∧
    (⟨[⟨1, "a", false, none, none⟩], 0⟩ : TuiState).todos ≠ [] ∧
    (0 ≤ (⟨[⟨1, "a", false, none, none⟩], 0⟩ : TuiState).selected ∧
      (⟨[⟨1, "a", false, none, none⟩], 0⟩ : TuiState).selected <
        (⟨[⟨1, "a", false, none, none⟩], 0⟩ : TuiState).todos.length) :=
  ⟨by decide, by decide,
    C1_selection_in_bounds [⟨1, "a", false, none, none⟩] [Key.down, Key.quit]
      ⟨[⟨1, "a", false, none, none⟩], 0⟩ (by decide) (by decide)⟩

/-- C3 (amended): for every initial list satisfying `items[i].id == i + 1`
and every sequence of key events containing no delete key, the invariant
holds at all times during the `run_tui` session and in the list `run_tui`
returns. The delete handler removes the item without renumbering, so after a
delete the invariant can fail (see the counterexample); renumbering is the
caller's responsibility on save. -/
theorem C3_ids_dense_no_delete (todos : List Todo) (ks : List Key) (s' : TuiState)
    (l : List Todo)
    (h0 : idsOk todos = true) (hnd : noDelete ks = true)
    (hmem : s' ∈ visited { todos := todos, selected := 0 } ks)
    (hret : run_tui todos ks = .ok l) :
    idsOk s'.todos = true ∧ idsOk l = true := by
  refine ⟨visited_ids _ ks h0 hnd s' hmem, ?_⟩
  unfold run_tui at hret
  cases hrun : runTuiFrom { todos := todos, selected := 0 } ks with
  | ok sf =>
    rw [hrun] at hret
    simp only [Except.map, Except.ok.injEq] at hret
    subst hret
    exact visited_ids _ ks h0 hnd sf (runTuiFrom_ok_mem_visited _ _ ks hrun)
  | error e =>
    rw [hrun] at hret
    simp [Except.map] at hret

/-- Witness for C3 at a concrete run: a one-item list under a toggle key then
quit keeps dense ids in every visited state and in the returned list. -/
theorem C3_ids_dense_no_delete_witness :
    idsOk [⟨1, "a", false, none, none⟩] = true ∧
    noDelete [Key.toggle, Key.quit] = true ∧
    (⟨[⟨1, "a", true, none, none⟩], 0⟩ : TuiState) ∈
      visited ⟨[⟨1, "a", false, none, none⟩], 0⟩ [Key.toggle, Key.quit] ∧
    run_tui [⟨1, "a", false, none, none⟩] [Key.toggle, Key.quit] =
      .ok [⟨1, "a", true, none, none⟩] ∧
    (idsOk (⟨[⟨1, "a", true, none, none⟩], 0⟩ : TuiState).todos = true ∧
      idsOk [⟨1, "a", true, none, none⟩] = true) :=
  ⟨by decide, by decide, by decide, by decide,
    C3_ids_dense_no_delete [⟨1, "a", false, none, none⟩] [Key.toggle, Key.quit]
      ⟨[⟨1, "a", true, none, none⟩], 0⟩ [⟨1, "a", true, none, none⟩]
      (by decide) (by decide) (by decide) (by decide)⟩

/-- Counterexample to C3 as stated: starting from a dense two-item list,
pressing delete (at selection 0) and quitting returns a list whose item at
index 0 still carries id 2, so `items[0].id = 0 + 1` fails on a state of the
session and on the returned list. -/
theorem C3_counterexample :
    idsOk [⟨1, "a", false, none, none⟩, ⟨2, "b", false, none, none⟩] = true ∧
    run_tui [⟨1, "a", false, none, none⟩, ⟨2, "b", false, none, none⟩]
        [Key.delete, Key.quit] = .ok [⟨2, "b", false, none, none⟩] ∧
    idsOk [⟨2, "b", false, none, none⟩] = false := by decide

/-- C4: for every list of length `n > 1`, pressing the delete key with
selection at index `i` (within bounds) removes the item at index `i`, yielding
a list of length `n - 1`; the new selection is `i - 1` when `i > 0` and stays
at `0` when `i = 0` (the `else` branch keeps `selected = i = 0`). -/
theorem C4_delete_semantics (todos : List Todo) (i : Nat)
    (hn : 1 < todos.length) (hi : i < todos.length) :
    handleKey Key.delete ⟨todos, i⟩ =
      .ok ⟨todos.eraseIdx i, if i > 0 then i - 1 else i⟩ ∧
    (todos.eraseIdx i).length = todos.length - 1 := by
  constructor
  · simp [handleKey, handleDelete, hi]
  · simp [List.length_eraseIdx, hi]

/-- Witness for C4: deleting index 1 of a two-item list. -/
theorem C4_delete_semantics_witness :
    1 < ([⟨1, "a", false, none, none⟩, ⟨2, "b", false, none, none⟩] : List Todo).length ∧
    1 < ([⟨1, "a", false, none, none⟩, ⟨2, "b", false, none, none⟩] : List Todo).length ∧
    (handleKey Key.delete ⟨[⟨1, "a", false, none, none⟩, ⟨2, "b", false, none, none⟩], 1⟩ =
      .ok ⟨([⟨1, "a", false, none, none⟩, ⟨2, "b", false, none, none⟩] : List Todo).eraseIdx 1,
        if 1 > 0 then 1 - 1 else 1⟩ ∧
    (([⟨1, "a", false, none, none⟩, ⟨2, "b", false, none, none⟩] : List Todo).eraseIdx 1).length =
      ([⟨1, "a", false, none, none⟩, ⟨2, "b", false, none, none⟩] : List Todo).length - 1) :=
  ⟨by decide, by decide,
    C4_delete_semantics [⟨1, "a", false, none, none⟩, ⟨2, "b", false, none, none⟩] 1
      (by decide) (by decide)⟩

/-- C5: the add operation with a scratch-file result that trims to empty
appends nothing and leaves the selection unchanged; with a non-empty trimmed
result it appends exactly one item with that text, `done = false`, no due
date, no reminder and `id = len + 1`, and moves the selection to the new last
index. -/
theorem C5_add_semantics (todos : List Todo) (sel : Nat) (c₁ c₂ : String) (code : Int)
    (h1 : (trim c₁).isEmpty = true) (h2 : (trim c₂).isEmpty = false) :
    handleKey (Key.add ⟨true, .launched code, some c₁⟩) ⟨todos, sel⟩ = .ok ⟨todos, sel⟩ ∧
    handleKey (Key.add ⟨true, .launched code, some c₂⟩) ⟨todos, sel⟩ =
      .ok ⟨todos ++ [⟨todos.length + 1, trim c₂, false, none, none⟩], todos.length⟩ := by
  constructor
  · simp [handleKey, handleAdd, run_editor, h1]
  · simp [handleKey, handleAdd, run_editor, h2]

/-- Witness for C5: empty content appends nothing; "buy milk" appends one
item and moves the selection to the new last index. -/
theorem C5_add_semantics_witness :
    (trim "").isEmpty = true ∧ (trim "buy milk").isEmpty = false ∧
    (handleKey (Key.add ⟨true, .launched 0, some ""⟩) ⟨[⟨1, "a", false, none, none⟩], 0⟩ =
      .ok ⟨[⟨1, "a", false, none, none⟩], 0⟩ ∧
    handleKey (Key.add ⟨true, .launched 0, some "buy milk"⟩) ⟨[⟨1, "a", false, none, none⟩], 0⟩ =
      .ok ⟨[⟨1, "a", false, none, none⟩] ++
        [⟨([⟨1, "a", false, none, none⟩] : List Todo).length + 1, trim "buy milk", false, none, none⟩],
        ([⟨1, "a", false, none, none⟩] : List Todo).length⟩) :=
  ⟨by decide, by decide,
    C5_add_semantics [⟨1, "a", false, none, none⟩] 0 "" "buy milk" 0 (by decide) (by decide)⟩

/-- C6: the edit-text operation with a scratch-file result that trims to
empty leaves the item's text unchanged (the whole state is unchanged), and
with a result whose trimmed form is the result itself, such as "new text",
the item's text becomes exactly that string. -/
theorem C6_edit_text_semantics (s : TuiState) (t : Todo) (c₁ c₂ : String) (code : Int)
    (hget : s.todos[s.selected]? = some t)
    (h1 : (trim c₁).isEmpty = true) (h2 : (trim c₂).isEmpty = false) :
    handleKey (Key.edit ⟨true, .launched code, some c₁⟩) s = .ok s ∧
    handleKey (Key.edit ⟨true, .launched code, some c₂⟩) s =
      .ok ⟨s.todos.set s.selected { t with text := trim c₂ }, s.selected⟩ := by
  constructor
  · simp [handleKey, handleEdit, run_editor, hget, h1]
  · simp [handleKey, handleEdit, run_editor, hget, h2]

/-- Witness for C6: whitespace-only content leaves the text "old"; content
"new text" replaces it with exactly "new text". -/
theorem C6_edit_text_semantics_witness :
    (⟨[⟨1, "old", false, none, none⟩], 0⟩ : TuiState).todos[
      (⟨[⟨1, "old", false, none, none⟩], 0⟩ : TuiState).selected]? =
        some ⟨1, "old", false, none, none⟩ ∧
    (trim "  ").isEmpty = true ∧ (trim "new text").isEmpty = false ∧
    (handleKey (Key.edit ⟨true, .launched 0, some "  "⟩) ⟨[⟨1, "old", false, none, none⟩], 0⟩ =
      .ok ⟨[⟨1, "old", false, none, none⟩], 0⟩ ∧
    handleKey (Key.edit ⟨true, .launched 0, some "new text"⟩)
        ⟨[⟨1, "old", false, none, none⟩], 0⟩ =
      .ok ⟨([⟨1, "old", false, none, none⟩] : List Todo).set 0
        ⟨1, trim "new text", false, none, none⟩, 0⟩) :=
  ⟨by decide, by decide, by decide,
    C6_edit_text_semantics ⟨[⟨1, "old", false, none, none⟩], 0⟩ ⟨1, "old", false, none, none⟩
      "  " "new text" 0 (by decide) (by decide) (by decide)⟩

/-- C7: whenever the item list is empty — including right after deleting the
sole remaining item, shown by the first conjunct — every item-level key
operation (toggle, delete, edit, due date, reminder, clear reminder) is a
no-op guarded by a bounds check (the `get_mut` / `selected < len` guards fail
on the empty list, for any value of `selected`), and being total Lean
functions they cannot panic. -/
theorem C7_empty_list_noop (sel : Nat) (env : BridgeEnv) (t : Todo) :
    handleKey Key.delete ⟨[t], 0⟩ = .ok ⟨[], 0⟩ ∧
    handleKey Key.toggle ⟨[], sel⟩ = .ok ⟨[], sel⟩ ∧
    handleKey Key.delete ⟨[], sel⟩ = .ok ⟨[], sel⟩ ∧
    handleKey (Key.edit env) ⟨[], sel⟩ = .ok ⟨[], sel⟩ ∧
    handleKey (Key.due env) ⟨[], sel⟩ = .ok ⟨[], sel⟩ ∧
    handleKey (Key.remind env) ⟨[], sel⟩ = .ok ⟨[], sel⟩ ∧
    handleKey Key.clearRemind ⟨[], sel⟩ = .ok ⟨[], sel⟩ := by
  refine ⟨?_, ?_, ?_, ?_, ?_, ?_, ?_⟩
  · simp [handleKey, handleDelete, List.eraseIdx]
  · simp [handleKey, handleToggle]
  · simp [handleKey, handleDelete]
  · simp [handleKey, handleEdit]
  · simp [handleKey, handleDue]
  · simp [handleKey, handleRemind]
  · simp [handleKey, handleClearRemind]

/-- C2 (amended): only an external-process launch failure is caught locally
inside the key handler (the handler falls through with the field and the
whole state unchanged, and the loop continues); a scratch-file write failure
or read failure is propagated by the `?` operator, so the handler — and with
it `run_tui` — returns an error and the session ends. -/
theorem C2_bridge_failure_semantics (s : TuiState) (t : Todo) (rb : Option String)
    (l : LaunchOutcome) (code : Int)
    (hget : s.todos[s.selected]? = some t) :
    (handleKey (Key.edit ⟨true, .failed, rb⟩) s = .ok s ∧
      handleKey (Key.due ⟨true, .failed, rb⟩) s = .ok s ∧
      handleKey (Key.remind ⟨true, .failed, rb⟩) s = .ok s ∧
      handleKey (Key.add ⟨true, .failed, rb⟩) s = .ok s) ∧
    (handleKey (Key.edit ⟨false, l, rb⟩) s = .error .fsWrite ∧
      handleKey (Key.due ⟨false, l, rb⟩) s = .error .fsWrite ∧
      handleKey (Key.remind ⟨false, l, rb⟩) s = .error .fsWrite ∧
      handleKey (Key.add ⟨false, l, rb⟩) s = .error .fsWrite) ∧
    (handleKey (Key.edit ⟨true, .launched code, none⟩) s = .error .fsRead ∧
      handleKey (Key.due ⟨true, .launched code, none⟩) s = .error .fsRead ∧
      handleKey (Key.remind ⟨true, .launched code, none⟩) s = .error .fsRead ∧
      handleKey (Key.add ⟨true, .launched code, none⟩) s = .error .fsRead) := by
  refine ⟨⟨?_, ?_, ?_, ?_⟩, ⟨?_, ?_, ?_, ?_⟩, ⟨?_, ?_, ?_, ?_⟩⟩ <;>
    simp [handleKey, handleEdit, handleDue, handleRemind, handleAdd, run_editor, hget]

/-- Witness for C2 (amended) on a one-item list at selection 0. -/
theorem C2_bridge_failure_semantics_witness :
    (⟨[⟨1, "a", false, none, none⟩], 0⟩ : TuiState).todos[
      (⟨[⟨1, "a", false, none, none⟩], 0⟩ : TuiState).selected]? =
        some ⟨1, "a", false, none, none⟩ ∧
    ((handleKey (Key.edit ⟨true, .failed, none⟩) ⟨[⟨1, "a", false, none, none⟩], 0⟩ =
        .ok ⟨[⟨1, "a", false, none, none⟩], 0⟩ ∧
      handleKey (Key.due ⟨true, .failed, none⟩) ⟨[⟨1, "a", false, none, none⟩], 0⟩ =
        .ok ⟨[⟨1, "a", false, none, none⟩], 0⟩ ∧
      handleKey (Key.remind ⟨true, .failed, none⟩) ⟨[⟨1, "a", false, none, none⟩], 0⟩ =
        .ok ⟨[⟨1, "a", false, none, none⟩], 0⟩ ∧
      handleKey (Key.add ⟨true, .failed, none⟩) ⟨[⟨1, "a", false, none, none⟩], 0⟩ =
        .ok ⟨[⟨1, "a", false, none, none⟩], 0⟩) ∧
    (handleKey (Key.edit ⟨false, .failed, none⟩) ⟨[⟨1, "a", false, none, none⟩], 0⟩ =
        .error .fsWrite ∧
      handleKey (Key.due ⟨false, .failed, none⟩) ⟨[⟨1, "a", false, none, none⟩], 0⟩ =
        .error .fsWrite ∧
      handleKey (Key.remind ⟨false, .failed, none⟩) ⟨[⟨1, "a", false, none, none⟩], 0⟩ =
        .error .fsWrite ∧
      handleKey (Key.add ⟨false, .failed, none⟩) ⟨[⟨1, "a", false, none, none⟩], 0⟩ =
        .error .fsWrite) ∧
    (handleKey (Key.edit ⟨true, .launched 2, none⟩) ⟨[⟨1, "a", false, none, none⟩], 0⟩ =
        .error .fsRead ∧
      handleKey (Key.due ⟨true, .launched 2, none⟩) ⟨[⟨1, "a", false, none, none⟩], 0⟩ =
        .error .fsRead ∧
      handleKey (Key.remind ⟨true, .launched 2, none⟩) ⟨[⟨1, "a", false, none, none⟩], 0⟩ =
        .error .fsRead ∧
      handleKey (Key.add ⟨true, .launched 2, none⟩) ⟨[⟨1, "a", false, none, none⟩], 0⟩ =
        .error .fsRead)) :=
  ⟨by decide,
    C2_bridge_failure_semantics ⟨[⟨1, "a", false, none, none⟩], 0⟩
      ⟨1, "a", false, none, none⟩ none .failed 2 (by decide)⟩

/-- Counterexample to C2 as stated: a scratch-file write failure during the
edit handler is not caught locally — `run_tui` returns an error instead of
continuing the session. -/
theorem C2_counterexample :
    run_tui [⟨1, "a", false, none, none⟩] [Key.edit ⟨false, LaunchOutcome.failed, none⟩] =
      .error .fsWrite := by decide

/-- C8 (amended): the set-due-date handler performs no format validation: any
scratch content with a non-empty trimmed form is stored verbatim (trimmed) as
the new due date, and empty content clears the field; the `YYYY-MM-DD` shape
is preserved only when the entered content happens to have it. -/
theorem C8_due_date_stored_verbatim (s : TuiState) (t : Todo) (c₁ c₂ : String) (code : Int)
    (hget : s.todos[s.selected]? = some t)
    (h1 : (trim c₁).isEmpty = true) (h2 : (trim c₂).isEmpty = false) :
    handleKey (Key.due ⟨true, .launched code, some c₁⟩) s =
      .ok ⟨s.todos.set s.selected { t with due_date := none }, s.selected⟩ ∧
    handleKey (Key.due ⟨true, .launched code, some c₂⟩) s =
      .ok ⟨s.todos.set s.selected { t with due_date := some (trim c₂) }, s.selected⟩ := by
  constructor
  · simp [handleKey, handleDue, run_editor, hget, h1]
  · simp [handleKey, handleDue, run_editor, hget, h2]

/-- Witness for C8 (amended): clearing with empty content and storing the
non-date string "notadate" verbatim. -/
theorem C8_due_date_stored_verbatim_witness :
    (⟨[⟨1, "a", false, some "2025-03-01", none⟩], 0⟩ : TuiState).todos[
      (⟨[⟨1, "a", false, some "2025-03-01", none⟩], 0⟩ : TuiState).selected]? =
        some ⟨1, "a", false, some "2025-03-01", none⟩ ∧
    (trim "").isEmpty = true ∧ (trim "notadate").isEmpty = false ∧
    (handleKey (Key.due ⟨true, .launched 0, some ""⟩)
        ⟨[⟨1, "a", false, some "2025-03-01", none⟩], 0⟩ =
      .ok ⟨([⟨1, "a", false, some "2025-03-01", none⟩] : List Todo).set 0
        ⟨1, "a", false, none, none⟩, 0⟩ ∧
    handleKey (Key.due ⟨true, .launched 0, some "notadate"⟩)
        ⟨[⟨1, "a", false, some "2025-03-01", none⟩], 0⟩ =
      .ok ⟨([⟨1, "a", false, some "2025-03-01", none⟩] : List Todo).set 0
        ⟨1, "a", false, some (trim "notadate"), none⟩, 0⟩) :=
  ⟨by decide, by decide, by decide,
    C8_due_date_stored_verbatim ⟨[⟨1, "a", false, some "2025-03-01", none⟩], 0⟩
      ⟨1, "a", false, some "2025-03-01", none⟩ "" "notadate" 0
      (by decide) (by decide) (by decide)⟩

/-- Counterexample to C8 as stated: starting from a list whose only due date
is in `YYYY-MM-DD` form, one set-due-date operation with content "notadate"
ends the session with a due date that is not in `YYYY-MM-DD` form. -/
theorem C8_counterexample :
    run_tui [⟨1, "a", false, some "2025-03-01", none⟩]
        [Key.due ⟨true, .launched 0, some "notadate"⟩, Key.quit] =
      .ok [⟨1, "a", false, some "notadate", none⟩] ∧
    isYYYYMMDD "2025-03-01" = true ∧
    isYYYYMMDD "notadate" = false := by decide

/-- C9: if the external editor process is successfully launched and exits
with any status — including non-zero — `run_editor` returns success, and the
calling handler proceeds to read back the scratch file and apply the field
update exactly as if the edit had succeeded. -/
theorem C9_exit_status_ignored (code : Int) (s : TuiState) (t : Todo) (c : String)
    (hget : s.todos[s.selected]? = some t) (hc : (trim c).isEmpty = false) :
    run_editor (.launched code) = .ok () ∧
    handleKey (Key.edit ⟨true, .launched code, some c⟩) s =
      .ok ⟨s.todos.set s.selected { t with text := trim c }, s.selected⟩ := by
  constructor
  · rfl
  · simp [handleKey, handleEdit, run_editor, hget, hc]

/-- Witness for C9 with a non-zero exit status. -/
theorem C9_exit_status_ignored_witness :
    (⟨[⟨1, "old", false, none, none⟩], 0⟩ : TuiState).todos[
      (⟨[⟨1, "old", false, none, none⟩], 0⟩ : TuiState).selected]? =
        some ⟨1, "old", false, none, none⟩ ∧
    (trim "new").isEmpty = false ∧
    (run_editor (.launched 1) = .ok () ∧
    handleKey (Key.edit ⟨true, .launched 1, some "new"⟩) ⟨[⟨1, "old", false, none, none⟩], 0⟩ =
      .ok ⟨([⟨1, "old", false, none, none⟩] : List Todo).set 0
        ⟨1, trim "new", false, none, none⟩, 0⟩) :=
  ⟨by decide, by decide,
    C9_exit_status_ignored 1 ⟨[⟨1, "old", false, none, none⟩], 0⟩
      ⟨1, "old", false, none, none⟩ "new" (by decide) (by decide)⟩

/-- C10: each single-item operation touches only its named target: toggle
changes only `done` of the item at the selected index, edit-text only `text`,
set-due-date only `due_date`, set-reminder and clear-reminder only
`reminder`; in every case all other fields of that item are carried over
unchanged (visible in the record updates), every other item (any index
`j ≠ selected`, last conjunct) is unchanged, and the selection index is
unchanged. -/
theorem C10_frame_effects (s : TuiState) (t t' : Todo) (c : String) (code : Int) (j : Nat)
    (hget : s.todos[s.selected]? = some t) (hc : (trim c).isEmpty = false)
    (hj : j ≠ s.selected) :
    handleKey Key.toggle s =
      .ok ⟨s.todos.set s.selected { t with done := !t.done }, s.selected⟩ ∧
    handleKey (Key.edit ⟨true, .launched code, some c⟩) s =
      .ok ⟨s.todos.set s.selected { t with text := trim c }, s.selected⟩ ∧
    handleKey (Key.due ⟨true, .launched code, some c⟩) s =
      .ok ⟨s.todos.set s.selected { t with due_date := some (trim c) }, s.selected⟩ ∧
    handleKey (Key.remind ⟨true, .launched code, some c⟩) s =
      .ok ⟨s.todos.set s.selected { t with reminder := some (trim c) }, s.selected⟩ ∧
    handleKey Key.clearRemind s =
      .ok ⟨s.todos.set s.selected { t with reminder := none }, s.selected⟩ ∧
    (s.todos.set s.selected t')[j]? = s.todos[j]? := by
  refine ⟨?_, ?_, ?_, ?_, ?_, ?_⟩
  · simp [handleKey, handleToggle, hget]
  · simp [handleKey, handleEdit, run_editor, hget, hc]
  · simp [handleKey, handleDue, run_editor, hget, hc]
  · simp [handleKey, handleRemind, run_editor, hget, hc]
  · simp [handleKey, handleClearRemind, hget]
  · rw [List.getElem?_set, if_neg (fun h => hj h.symm)]

/-- Witness for C10 on a two-item list at selection 0, frame index 1. -/
theorem C10_frame_effects_witness :
    (⟨[⟨1, "a", false, none, none⟩, ⟨2, "b", true, some "2025-03-01", some "2025-03-01 09:00"⟩],
        0⟩ : TuiState).todos[
      (⟨[⟨1, "a", false, none, none⟩, ⟨2, "b", true, some "2025-03-01", some "2025-03-01 09:00"⟩],
        0⟩ : TuiState).selected]? = some ⟨1, "a", false, none, none⟩ ∧
    (trim "x").isEmpty = false ∧
    (1 : Nat) ≠ (⟨[⟨1, "a", false, none, none⟩,
        ⟨2, "b", true, some "2025-03-01", some "2025-03-01 09:00"⟩], 0⟩ : TuiState).selected ∧
    (handleKey Key.toggle
        ⟨[⟨1, "a", false, none, none⟩,
          ⟨2, "b", true, some "2025-03-01", some "2025-03-01 09:00"⟩], 0⟩ =
      .ok ⟨([⟨1, "a", false, none, none⟩,
          ⟨2, "b", true, some "2025-03-01", some "2025-03-01 09:00"⟩] : List Todo).set 0
            ⟨1, "a", true, none, none⟩, 0⟩ ∧
    handleKey (Key.edit ⟨true, .launched 0, some "x"⟩)
        ⟨[⟨1, "a", false, none, none⟩,
          ⟨2, "b", true, some "2025-03-01", some "2025-03-01 09:00"⟩], 0⟩ =
      .ok ⟨([⟨1, "a", false, none, none⟩,
          ⟨2, "b", true, some "2025-03-01", some "2025-03-01 09:00"⟩] : List Todo).set 0
            ⟨1, trim "x", false, none, none⟩, 0⟩ ∧
    handleKey (Key.due ⟨true, .launched 0, some "x"⟩)
        ⟨[⟨1, "a", false, none, none⟩,
          ⟨2, "b", true, some "2025-03-01", some "2025-03-01 09:00"⟩], 0⟩ =
      .ok ⟨([⟨1, "a", false, none, none⟩,
          ⟨2, "b", true, some "2025-03-01", some "2025-03-01 09:00"⟩] : List Todo).set 0
            ⟨1, "a", false, some (trim "x"), none⟩, 0⟩ ∧
    handleKey (Key.remind ⟨true, .launched 0, some "x"⟩)
        ⟨[⟨1, "a", false, none, none⟩,
          ⟨2, "b", true, some "2025-03-01", some "2025-03-01 09:00"⟩], 0⟩ =
      .ok ⟨([⟨1, "a", false, none, none⟩,
          ⟨2, "b", true, some "2025-03-01", some "2025-03-01 09:00"⟩] : List Todo).set 0
            ⟨1, "a", false, none, some (trim "x")⟩, 0⟩ ∧
    handleKey Key.clearRemind
        ⟨[⟨1, "a", false, none, none⟩,
          ⟨2, "b", true, some "2025-03-01", some "2025-03-01 09:00"⟩], 0⟩ =
      .ok ⟨([⟨1, "a", false, none, none⟩,
          ⟨2, "b", true, some "2025-03-01", some "2025-03-01 09:00"⟩] : List Todo).set 0
            ⟨1, "a", false, none, none⟩, 0⟩ ∧
    (([⟨1, "a", false, none, none⟩,
        ⟨2, "b", true, some "2025-03-01", some "2025-03-01 09:00"⟩] : List Todo).set 0
          ⟨9, "z", true, none, none⟩)[1]? =
      ([⟨1, "a", false, none, none⟩,
        ⟨2, "b", true, some "2025-03-01", some "2025-03-01 09:00"⟩] : List Todo)[1]?) :=
  ⟨by decide, by decide, by decide,
    C10_frame_effects
      ⟨[⟨1, "a", false, none, none⟩,
        ⟨2, "b", true, some "2025-03-01", some "2025-03-01 09:00"⟩], 0⟩
      ⟨1, "a", false, none, none⟩ ⟨9, "z", true, none, none⟩ "x" 0 1
      (by decide) (by decide) (by decide)⟩

end TodoTui
